import Mathlib

/-!
Verification of the RPC dispatch core in `rpc/server.go` (repository bq49/starx).

The Go code is shallowly embedded: Go's reflection objects become an explicit
algebra of types (`GoType`) and method descriptors (`GoMethod`); the service
map `map[string]*service` becomes an association list (front insertion, first
match wins on lookup, which agrees with a Go map because service names are
checked for duplicates before insertion and a reflected type never exposes two
methods with the same name); runtime values flowing through `reflect.Value`
become the inductive `GoVal`.  Locking and handler invocation, which are side
effects in Go, are made observable as explicit event lists in the results of
`register` and `Call`.
-/

namespace Starx

/-- Kinds of Go types, the fragment of `reflect.Kind` the server inspects
(`reflect.Ptr` is the only kind compared against; the others just have to be
distinct from it). -/
inductive GoKind where
  | ptr
  | iface
  | slice
  | str
  | struct
  | other
deriving DecidableEq

/-- A Go type as seen through the `reflect` calls the server makes:
`Kind()`, `Name()`, `PkgPath()`, `Elem()` and type identity (`==`/`!=` on
`reflect.Type`). `named k n p` is a type whose `Kind()` is `k`, `Name()` is
`n` and `PkgPath()` is `p`; `ptr t` is `*t`; `slice t` is `[]t` (both unnamed,
so `Name()` and `PkgPath()` are empty for them, as in Go). -/
inductive GoType where
  | ptr (elem : GoType)
  | slice (elem : GoType)
  | named (kind : GoKind) (name : String) (pkgPath : String)
deriving DecidableEq

/-- Model of `reflect.Type.Kind()`. -/
def GoType.kind : GoType → GoKind
  | .ptr _ => .ptr
  | .slice _ => .slice
  | .named k _ _ => k

/-- Model of `reflect.Type.Name()`: empty for unnamed (pointer / slice) types. -/
def GoType.name : GoType → String
  | .ptr _ => ""
  | .slice _ => ""
  | .named _ n _ => n

/-- Model of `reflect.Type.PkgPath()`: empty for unnamed types and builtins. -/
def GoType.pkgPath : GoType → String
  | .ptr _ => ""
  | .slice _ => ""
  | .named _ _ p => p

/-- Model of `reflect.Type.String()` (approximated: Go prints the package name, we keep
the stored package path; only used as an opaque payload in error values). -/
def GoType.string : GoType → String
  | .ptr t => "*" ++ t.string
  | .slice t => "[]" ++ t.string
  | .named _ n p => if p = "" then n else p ++ "." ++ n

/-- The loop `for t.Kind() == reflect.Ptr { t = t.Elem() }` in
`isExportedOrBuiltinType`. -/
def GoType.derefAll : GoType → GoType
  | .ptr t => t.derefAll
  | .slice t => .slice t
  | .named k n p => .named k n p

/-- Model of `reflect.Indirect(v).Type().Name()`: one level of pointer indirection,
then the type name (used by `register` to derive the service name). -/
def GoType.indirectName : GoType → String
  | .ptr t => t.name
  | t => t.name

/-- The zero `reflect.Type` (never actually inspected: it only serves as the
default for list indexing that the Go code performs after a length check). -/
def GoType.invalid : GoType := .named .other "" ""

instance : Inhabited GoType := ⟨GoType.invalid⟩

/-- Embeds `var typeOfError = reflect.TypeOf((*error)(nil)).Elem()`: the builtin
`error` interface (`Name() = "error"`, `PkgPath() = ""`). -/
def typeOfError : GoType := .named .iface "error" ""

/-- Embeds `var typeOfBytes = reflect.TypeOf(([]byte)(nil))`: the unnamed slice type
`[]uint8`. -/
def typeOfBytes : GoType := .slice (.named .other "uint8" "")

/-- The builtin `string` type (used to check that `(string, error)` methods
are rejected in the user namespace). -/
def typeOfString : GoType := .named .str "string" ""

/-- Runtime values (`reflect.Value`) as far as the dispatcher moves them
around: byte slices, strings, error values (`none` = nil error) and opaque
receiver objects. -/
inductive GoVal where
  | bytes (data : List Nat)
  | str (s : String)
  | errv (msg : Option String)
  | obj (id : Nat)
deriving DecidableEq

/-- A method as enumerated by `reflect.Type.Method(m)`: its `Name`, its
`PkgPath` (empty exactly for exported methods), the parameter types of its
`Func` (`ins.get 0` is the receiver, as in Go where `Method(m).Type.In(0)` is
the receiver), its result types, and the function itself
(`Method.Func.Call`). -/
structure GoMethod where
  name : String
  pkgPath : String
  ins : List GoType
  outs : List GoType
  func : List GoVal → List GoVal

/-- Embeds `type methodType struct` (the mutex only guards `numCalls`, which in the
embedding is a plain field). -/
structure methodType where
  method : GoMethod
  ArgType : Option GoType
  ReplyType : Option GoType
  numCalls : Nat

/-- Embeds `func (m *methodType) NumCalls() (n uint)`. -/
def methodType.NumCalls (m : methodType) : Nat := m.numCalls

/-- Embeds `type service struct`. -/
structure service where
  name : String
  rcvr : GoVal
  typ : GoType
  method : List (String × methodType)

/-- Embeds `type RpcKind byte` (the zero value is invalid and unused). -/
inductive RpcKind where
  | sysRpc
  | userRpc
deriving DecidableEq

/-- Embeds `type Server struct`: the namespace kind and the service map.  The locks
and the free lists are modelled separately (`LockEvent`, `RespPool`). -/
structure Server where
  kind : RpcKind
  serviceMap : List (String × service)

/-- Embeds `func NewServer(kind RpcKind) *Server`. -/
def NewServer (kind : RpcKind) : Server := ⟨kind, []⟩

/-- Embeds `func isExported(name string) bool`: true iff the first rune of `name` is
upper case (`utf8.DecodeRuneInString` of the empty string yields
`RuneError`, which is not upper case). -/
def isExported (name : String) : Bool :=
  match name.data with
  | [] => false
  | c :: _ => c.isUpper

/-- Embeds `func isExportedOrBuiltinType(t reflect.Type) bool`: strip pointers, then
`isExported(t.Name()) || t.PkgPath() == ""`. -/
def isExportedOrBuiltinType (t : GoType) : Bool :=
  isExported t.derefAll.name || t.derefAll.pkgPath == ""

/-- The Sys-namespace acceptance test: the chain of `continue` guards in the
`kind == SysRpc` branch of `suitableMethods` (lines 188-236). -/
def sysSuitable (m : GoMethod) : Bool :=
  if m.pkgPath ≠ "" then false
  else if m.ins.length ≠ 3 then false
  else if ¬ isExportedOrBuiltinType (m.ins.getD 1 GoType.invalid) then false
  else if (m.ins.getD 1 GoType.invalid).kind ≠ GoKind.ptr then false
  else if ¬ isExportedOrBuiltinType (m.ins.getD 2 GoType.invalid) then false
  else if m.outs.length ≠ 1 then false
  else if m.outs.getD 0 GoType.invalid ≠ typeOfError then false
  else true

/-- The User-namespace acceptance test: the chain of `continue` guards in the
`kind == UserRpc` branch of `suitableMethods` (lines 240-273). -/
def userSuitable (m : GoMethod) : Bool :=
  if m.pkgPath ≠ "" then false
  else if m.ins.length < 1 then false
  else if m.outs.length ≠ 2 then false
  else if m.outs.getD 0 GoType.invalid ≠ typeOfBytes then false
  else if m.outs.getD 1 GoType.invalid ≠ typeOfError then false
  else true

/-- Whether `suitableMethods` keeps method `m` under namespace `kind`. -/
def suitable (kind : RpcKind) (m : GoMethod) : Bool :=
  match kind with
  | .sysRpc => sysSuitable m
  | .userRpc => userSuitable m

/-- The descriptor stored for an accepted method: the Sys branch stores
`&methodType{method, ArgType, ReplyType}`, the User branch `&methodType{method}`
(zero `ArgType`/`ReplyType`/`numCalls`). -/
def descriptorOf (kind : RpcKind) (m : GoMethod) : methodType :=
  match kind with
  | .sysRpc => ⟨m, some (m.ins.getD 1 GoType.invalid), some (m.ins.getD 2 GoType.invalid), 0⟩
  | .userRpc => ⟨m, none, none, 0⟩

/-- One iteration of the `suitableMethods` loop: `methods[mname] = &methodType{...}`
for an accepted method (front insertion: a later assignment shadows an earlier
one under `List.lookup`, as in a Go map). -/
def addSuitable (kind : RpcKind) (acc : List (String × methodType)) (m : GoMethod) :
    List (String × methodType) :=
  if suitable kind m then (m.name, descriptorOf kind m) :: acc else acc

/-- Embeds `func suitableMethods(kind RpcKind, typ reflect.Type, reportErr bool)`:
the loop over `typ.Method(m)` (`reportErr` only controls logging, which has no
observable effect here). -/
def suitableMethods (kind : RpcKind) (methods : List GoMethod) :
    List (String × methodType) :=
  methods.foldl (addSuitable kind) []

/-- Lock operations on `Server.mu`, made observable. -/
inductive LockEvent where
  | writeLock
  | writeUnlock
  | readLock
  | readUnlock
deriving DecidableEq

/-- A receiver value passed to `register`, together with what reflection
reports about it: `typ = reflect.TypeOf(rcvr)`, `methods` the method set of
`typ`, and `ptrMethods` the method set of `reflect.PtrTo(typ)` (used for the
pointer-receiver hint). -/
structure GoRcvr where
  typ : GoType
  methods : List GoMethod
  ptrMethods : List GoMethod
  val : GoVal

/-- The four distinct error returns of `register`, each identified with the
message string the code builds (the payload is the name interpolated into
the message). -/
inductive RegisterError where
  | emptyServiceName (typeStr : String)
  | nameNotExported (name : String)
  | duplicateService (name : String)
  | noSuitableMethods (name : String) (ptrHint : Bool)
deriving DecidableEq

/-- The result of `register`: the final server state, the returned error, and
the lock operations performed (`server.mu.Lock()` on entry, the deferred
`server.mu.Unlock()` on return). -/
structure RegisterResult where
  server : Server
  err : Option RegisterError
  locks : List LockEvent

/-- The body of `register` between `server.mu.Lock()` and the deferred
`server.mu.Unlock()` (lines 139-181): name derivation, the three name checks,
method validation, and insertion on success. -/
def registerCore (server : Server) (rcvr : GoRcvr) (name : String) (useName : Bool) :
    Server × Option RegisterError :=
  let sname := if useName then name else rcvr.typ.indirectName
  if sname = "" then
    (server, some (.emptyServiceName rcvr.typ.string))
  else if ¬ isExported sname ∧ useName = false then
    (server, some (.nameNotExported sname))
  else
    match List.lookup sname server.serviceMap with
    | some _ => (server, some (.duplicateService sname))
    | none =>
      let ms := suitableMethods server.kind rcvr.methods
      if ms.isEmpty then
        let hint : Bool := !(suitableMethods server.kind rcvr.ptrMethods).isEmpty
        (server, some (.noSuitableMethods sname hint))
      else
        ({ server with serviceMap := (sname, ⟨sname, rcvr.val, rcvr.typ, ms⟩) :: server.serviceMap },
         none)

/-- Embeds `func (server *Server) register(rcvr interface\x7b\x7d, name string, useName bool) error`
(lines 136-182): `server.mu.Lock()`, the body, the deferred `server.mu.Unlock()`. -/
def register (server : Server) (rcvr : GoRcvr) (name : String) (useName : Bool) :
    RegisterResult :=
  ⟨(registerCore server rcvr name useName).1,
   (registerCore server rcvr name useName).2,
   [LockEvent.writeLock, LockEvent.writeUnlock]⟩

/-- The three distinct error returns of `Call`: `"wrong route string"`,
`"rpc: <sname> do not exists"` (service lookup) and
`"rpc: <smethod> do not exists"` (method lookup). -/
inductive CallError where
  | invalidRouteFormat
  | serviceNotFound (name : String)
  | methodNotFound (name : String)
deriving DecidableEq

/-- Observable steps of `Call`: map lookups, handler invocation, and lock
operations on `server.mu` (the vocabulary includes read locks so that their
absence from every trace is a statement, not a typing accident). -/
inductive CallEvent where
  | readLock
  | readUnlock
  | lookupService (name : String)
  | lookupMethod (sname mname : String)
  | invoke (sname mname : String) (args : List GoVal)
deriving DecidableEq

/-- Whether a `CallEvent` is a lock operation. -/
def CallEvent.isLockOp : CallEvent → Bool
  | .readLock => true
  | .readUnlock => true
  | _ => false

/-- The result of `Call`: the final server state, the trace of observable
steps, the returned `[]reflect.Value` (`none` = nil) and the returned error. -/
structure CallResult where
  server : Server
  trace : List CallEvent
  rets : Option (List GoVal)
  err : Option CallError

/-- Model of `strings.Split(s, ".")` on character lists: splitting on every `'.'`,
with `Split("", ".") = [""]`. -/
def splitDotChars : List Char → List (List Char)
  | [] => [[]]
  | c :: rest =>
    if c = '.' then [] :: splitDotChars rest
    else
      match splitDotChars rest with
      | [] => [[c]]
      | w :: ws => (c :: w) :: ws

/-- Model of `strings.Split(serviceMethod, ".")`. -/
def splitDot (s : String) : List String :=
  (splitDotChars s.data).map List.asString

/-- The computation performed by `Call`: route split and format check, the
two lookups, and the invocation `m.method.Func.Call(append([]reflect.Value{s.rcvr}, args...))`.
Returns the event trace, the returned values and the returned error.
The source takes no lock anywhere in this path and writes nothing. -/
def callCore (server : Server) (serviceMethod : String) (args : List GoVal) :
    List CallEvent × Option (List GoVal) × Option CallError :=
  let parts := splitDot serviceMethod
  if parts.length ≠ 2 then
    ([], none, some .invalidRouteFormat)
  else
    let sname := parts.getD 0 ""
    let smethod := parts.getD 1 ""
    match List.lookup sname server.serviceMap with
    | none => ([.lookupService sname], none, some (.serviceNotFound sname))
    | some s =>
      match List.lookup smethod s.method with
      | none =>
        ([.lookupService sname, .lookupMethod sname smethod],
         none, some (.methodNotFound smethod))
      | some m =>
        let callArgs := s.rcvr :: args
        ([.lookupService sname, .lookupMethod sname smethod, .invoke sname smethod callArgs],
         some (m.method.func callArgs), none)

/-- Embeds `func (server *Server) Call(serviceMethod string, args []reflect.Value)`
(lines 314-331).  The server state is returned unchanged because the source
performs no write to it on this path. -/
def Call (server : Server) (serviceMethod : String) (args : List GoVal) : CallResult :=
  ⟨server,
   (callCore server serviceMethod args).1,
   (callCore server serviceMethod args).2.1,
   (callCore server serviceMethod args).2.2⟩

/-- Embeds `type Response struct` (the `next` pointer is represented by the position
in the free list, not by a field). -/
structure Response where
  Kind : Nat
  ServiceMethod : String
  Seq : Nat
  Sid : Nat
  Reply : List Nat
  Error : String
  Route : String
deriving DecidableEq

/-- The zero `Response{}`. -/
def Response.zero : Response := ⟨0, "", 0, 0, [], "", ""⟩

/-- The `freeResp` list of a `Server`, with each entry tagged by the identity
of its underlying storage (`nextAlloc` supplies fresh identities for
`new(Response)`). -/
structure RespPool where
  freeResp : List (Nat × Response)
  nextAlloc : Nat

/-- Embeds `func (server *Server) getResponse() *Response` (lines 294-305): pop the
free-list head and reset it with `*resp = Response{}`, or allocate a fresh
zeroed `Response`. -/
def getResponse (p : RespPool) : (Nat × Response) × RespPool :=
  match p.freeResp with
  | [] => ((p.nextAlloc, Response.zero), ⟨[], p.nextAlloc + 1⟩)
  | (id, _) :: rest => ((id, Response.zero), ⟨rest, p.nextAlloc⟩)

/-- Embeds `func (server *Server) freeResponse(resp *Response)` (lines 307-312):
push onto the free-list head, preserving the object's current contents. -/
def freeResponse (p : RespPool) (resp : Nat × Response) : RespPool :=
  ⟨resp :: p.freeResp, p.nextAlloc⟩

/-- An operation against one `Server` (for stating frame properties over
arbitrary interleavings of registrations and dispatches). -/
inductive Op where
  | reg (rcvr : GoRcvr) (name : String) (useName : Bool)
  | call (route : String) (args : List GoVal)

/-- Run one operation, keeping the resulting server state. -/
def runOp (s : Server) : Op → Server
  | .reg rcvr name useName => (register s rcvr name useName).server
  | .call route args => (Call s route args).server

/-- Run a sequence of operations from an initial state. -/
def runOps (s : Server) (ops : List Op) : Server :=
  ops.foldl runOp s

/-! ### Concrete example receivers (used to instantiate the theorems) -/

/-- The reflected type of a User-namespace `Echo` receiver. -/
def echoType : GoType := .named .struct "Echo" "main"

/-- Embeds `func (e Echo) Echo(payload []byte) ([]byte, error)`, returning its input
unchanged with a nil error. -/
def echoMethod : GoMethod where
  name := "Echo"
  pkgPath := ""
  ins := [echoType, typeOfBytes]
  outs := [typeOfBytes, typeOfError]
  func := fun args =>
    match args with
    | [_, GoVal.bytes p] => [GoVal.bytes p, GoVal.errv none]
    | _ => []

/-- The `Echo` receiver as seen by `register`. -/
def echoRcvr : GoRcvr := ⟨echoType, [echoMethod], [echoMethod], GoVal.obj 0⟩

/-- A user-namespace server with the `Echo` service registered. -/
def echoServer : Server := (register (NewServer RpcKind.userRpc) echoRcvr "" false).server

/-- The service record `register` stores for `echoRcvr`. -/
def echoService : service :=
  ⟨"Echo", GoVal.obj 0, echoType, suitableMethods RpcKind.userRpc [echoMethod]⟩

/-- The method descriptor stored for `echoMethod`. -/
def echoMT : methodType := descriptorOf RpcKind.userRpc echoMethod

/-- A Sys-namespace method of the accepted shape
`func (s *Svc) Add(args *Args, reply *Reply) error`. -/
def sysExampleMethod : GoMethod where
  name := "Add"
  pkgPath := ""
  ins := [.ptr (.named .struct "Svc" "main"), .ptr (.named .struct "Args" "main"),
          .ptr (.named .struct "Reply" "main")]
  outs := [typeOfError]
  func := fun _ => [GoVal.errv none]

/-- A User-namespace method of the rejected shape
`func (e Echo) Str() (string, error)`. -/
def strExampleMethod : GoMethod where
  name := "Str"
  pkgPath := ""
  ins := [echoType]
  outs := [typeOfString, typeOfError]
  func := fun _ => [GoVal.str "", GoVal.errv none]

/-- A receiver whose value type has no suitable methods but whose pointer
type does (exercising the pointer-receiver hint of `register`). -/
def hintRcvr : GoRcvr := ⟨.named .struct "Hint" "main", [], [echoMethod], GoVal.obj 1⟩

/-- A concrete operation sequence: one registration followed by a successful
and a failing dispatch. -/
def c10Ops : List Op :=
  [Op.reg echoRcvr "" false, Op.call "Echo.Echo" [GoVal.bytes [1]],
   Op.call "Echo.Missing" []]

/-! ### Lookup characterization of `suitableMethods` -/

/-- Folding `addSuitable` over methods none of which is named `k` does not
change what `k` looks up to. -/
theorem lookup_foldl_addSuitable_of_notMem (kind : RpcKind) (k : String) :
    ∀ (l : List GoMethod) (acc : List (String × methodType)),
      (∀ m ∈ l, m.name ≠ k) →
      List.lookup k (l.foldl (addSuitable kind) acc) = List.lookup k acc := by
  intro l
  induction l with
  | nil => intro acc _; rfl
  | cons a t ih =>
    intro acc h
    rw [List.foldl_cons, ih _ (fun m hm => h m (List.mem_cons_of_mem a hm))]
    unfold addSuitable
    split
    · have hne : (k == a.name) = false :=
        beq_eq_false_iff_ne.mpr (Ne.symm (h a (List.mem_cons_self a t)))
      simp [List.lookup, hne]
    · rfl

/-- Under distinct method names, looking up `m.name` in the fold yields `m`'s
descriptor exactly when `m` passes the namespace check. -/
theorem lookup_foldl_addSuitable (kind : RpcKind) (m : GoMethod) :
    ∀ (l : List GoMethod) (acc : List (String × methodType)),
      m ∈ l → (l.map GoMethod.name).Nodup →
      List.lookup m.name (l.foldl (addSuitable kind) acc) =
        if suitable kind m then some (descriptorOf kind m) else List.lookup m.name acc := by
  intro l
  induction l with
  | nil => intro acc hm _; exact absurd hm (List.not_mem_nil m)
  | cons a t ih =>
    intro acc hm hnd
    rw [List.map_cons, List.nodup_cons] at hnd
    rcases List.mem_cons.mp hm with rfl | hmt
    · have hnone : ∀ m' ∈ t, m'.name ≠ m.name := by
        intro m' hm' heq
        exact hnd.1 (heq ▸ List.mem_map_of_mem GoMethod.name hm')
      rw [List.foldl_cons, lookup_foldl_addSuitable_of_notMem kind m.name t _ hnone]
      unfold addSuitable
      split
      · simp [List.lookup]
      · rfl
    · have hne : a.name ≠ m.name := by
        intro heq
        exact hnd.1 (heq ▸ List.mem_map_of_mem GoMethod.name hmt)
      have hbne : (m.name == a.name) = false := beq_eq_false_iff_ne.mpr (Ne.symm hne)
      have hacc : List.lookup m.name (addSuitable kind acc a) = List.lookup m.name acc := by
        unfold addSuitable
        split
        · simp [List.lookup, hbne]
        · rfl
      rw [List.foldl_cons, ih _ hmt hnd.2, hacc]

/-- Unfolding of the Sys acceptance test into its individual conditions. -/
theorem sysSuitable_iff (m : GoMethod) :
    sysSuitable m = true ↔
      (m.pkgPath = "" ∧
       m.ins.length = 3 ∧
       isExportedOrBuiltinType (m.ins.getD 1 GoType.invalid) = true ∧
       (m.ins.getD 1 GoType.invalid).kind = GoKind.ptr ∧
       isExportedOrBuiltinType (m.ins.getD 2 GoType.invalid) = true ∧
       m.outs.length = 1 ∧
       m.outs.getD 0 GoType.invalid = typeOfError) := by
  unfold sysSuitable
  split_ifs <;> simp_all

/-- Unfolding of the User acceptance test into its individual conditions. -/
theorem userSuitable_iff (m : GoMethod) :
    userSuitable m = true ↔
      (m.pkgPath = "" ∧
       1 ≤ m.ins.length ∧
       m.outs.length = 2 ∧
       m.outs.getD 0 GoType.invalid = typeOfBytes ∧
       m.outs.getD 1 GoType.invalid = typeOfError) := by
  unfold userSuitable
  split_ifs <;> simp_all
  exact List.length_pos.mpr (by assumption)

/-! ### Claim theorems: the two validators -/

/-- C1: for every reflected type (given as its method list, with the distinct
names reflection guarantees) and every method of it, the Sys-namespace
validator admits the method if and only if it is exported, has exactly two
parameters beyond the receiver, the first parameter's type is
exported-or-builtin and of pointer kind, the second parameter's type is
exported-or-builtin (pointer-ness not required), and it has exactly one
return value whose type is exactly the error interface. -/
theorem sys_validator_characterization (methods : List GoMethod) (m : GoMethod)
    (hm : m ∈ methods) (hnd : (methods.map GoMethod.name).Nodup) :
    (List.lookup m.name (suitableMethods RpcKind.sysRpc methods)).isSome = true ↔
      (m.pkgPath = "" ∧
       m.ins.length = 3 ∧
       isExportedOrBuiltinType (m.ins.getD 1 GoType.invalid) = true ∧
       (m.ins.getD 1 GoType.invalid).kind = GoKind.ptr ∧
       isExportedOrBuiltinType (m.ins.getD 2 GoType.invalid) = true ∧
       m.outs.length = 1 ∧
       m.outs.getD 0 GoType.invalid = typeOfError) := by
  rw [suitableMethods, lookup_foldl_addSuitable RpcKind.sysRpc m methods [] hm hnd]
  split_ifs with hs
  · exact iff_of_true rfl ((sysSuitable_iff m).mp hs)
  · exact iff_of_false (by simp) (fun h => hs ((sysSuitable_iff m).mpr h))

/-- C1 witness: `func (s *Svc) Add(args *Args, reply *Reply) error` is
admitted by the Sys validator. -/
theorem sys_validator_characterization_witness :
    (List.lookup "Add" (suitableMethods RpcKind.sysRpc [sysExampleMethod])).isSome = true :=
  (sys_validator_characterization [sysExampleMethod] sysExampleMethod
      (List.mem_singleton.mpr rfl) (by simp)).mpr (by decide)

/-- C2: for every reflected type (method list with distinct names, every
method carrying its receiver as parameter 0) and every method of it, the
User-namespace validator admits the method if and only if it is exported and
has exactly two return values, the first exactly `[]byte` and the second
exactly the error interface; the arity check (`NumIn() < 1`) never rejects,
so no argument-count condition appears on the right-hand side, and a method
returning `(string, error)` fails the first-return condition. -/
theorem user_validator_characterization (methods : List GoMethod) (m : GoMethod)
    (hm : m ∈ methods) (hnd : (methods.map GoMethod.name).Nodup)
    (hrecv : m.ins ≠ []) :
    (List.lookup m.name (suitableMethods RpcKind.userRpc methods)).isSome = true ↔
      (m.pkgPath = "" ∧
       m.outs.length = 2 ∧
       m.outs.getD 0 GoType.invalid = typeOfBytes ∧
       m.outs.getD 1 GoType.invalid = typeOfError) := by
  rw [suitableMethods, lookup_foldl_addSuitable RpcKind.userRpc m methods [] hm hnd]
  have hlen : 1 ≤ m.ins.length := List.length_pos.mpr hrecv
  split_ifs with hs
  · obtain ⟨h1, _, h3, h4, h5⟩ := (userSuitable_iff m).mp hs
    exact iff_of_true rfl ⟨h1, h3, h4, h5⟩
  · exact iff_of_false (by simp)
      (fun h => hs ((userSuitable_iff m).mpr ⟨h.1, hlen, h.2.1, h.2.2.1, h.2.2.2⟩))

/-- C2 witness: the byte-sequence `Echo` method is admitted by the User
validator, and a `(string, error)` method is rejected. -/
theorem user_validator_characterization_witness :
    (List.lookup "Echo" (suitableMethods RpcKind.userRpc [echoMethod])).isSome = true ∧
    (List.lookup "Str" (suitableMethods RpcKind.userRpc [strExampleMethod])).isSome = false := by
  constructor
  · exact (user_validator_characterization [echoMethod] echoMethod
      (List.mem_singleton.mpr rfl) (by simp) (by decide)).mpr (by decide)
  · have hiff := user_validator_characterization [strExampleMethod] strExampleMethod
      (List.mem_singleton.mpr rfl) (by simp) (by decide)
    cases hval : (List.lookup "Str" (suitableMethods RpcKind.userRpc [strExampleMethod])).isSome
    · rfl
    · exact absurd (hiff.mp hval) (by decide)

/-! ### Claim theorems: registration -/

/-- C3: `register` fails with the empty-name error exactly when the
(derived or explicit) service name is empty; with the not-exported error
exactly when the name is non-empty, no explicit name was used and the derived
name is not exported; with the duplicate error exactly when, those checks
passing, the name is already in the service map; and with the no-suitable-
methods error exactly when, all earlier checks passing, the validator admits
no method — with the pointer-receiver hint set exactly when validating the
pointer-to-type admits at least one method.  The negated earlier conditions
on each right-hand side express that the checks apply in this order. -/
theorem register_error_characterization (server : Server) (rcvr : GoRcvr)
    (name : String) (useName : Bool) (sname : String)
    (hs : sname = if useName then name else rcvr.typ.indirectName) :
    ((register server rcvr name useName).err =
        some (RegisterError.emptyServiceName rcvr.typ.string) ↔ sname = "") ∧
    ((register server rcvr name useName).err =
        some (RegisterError.nameNotExported sname) ↔
      sname ≠ "" ∧ isExported sname = false ∧ useName = false) ∧
    ((register server rcvr name useName).err =
        some (RegisterError.duplicateService sname) ↔
      sname ≠ "" ∧ (isExported sname = true ∨ useName = true) ∧
      (List.lookup sname server.serviceMap).isSome = true) ∧
    (∀ hint : Bool,
      (register server rcvr name useName).err =
          some (RegisterError.noSuitableMethods sname hint) ↔
        sname ≠ "" ∧ (isExported sname = true ∨ useName = true) ∧
        List.lookup sname server.serviceMap = none ∧
        suitableMethods server.kind rcvr.methods = [] ∧
        hint = !(suitableMethods server.kind rcvr.ptrMethods).isEmpty) := by
  have hreg : (register server rcvr name useName).err =
      (registerCore server rcvr name useName).2 := rfl
  rw [hreg]
  simp only [registerCore]
  rw [← hs]
  clear hs
  split_ifs with h1 h2 h3
  · simp_all
  · simp_all
  · cases hl : List.lookup sname server.serviceMap with
    | some v => simp_all; cases hA : isExported sname <;> simp_all
    | none => simp_all [List.isEmpty_iff]; cases hA : isExported sname <;> simp_all
  · cases hl : List.lookup sname server.serviceMap with
    | some v => simp_all; cases hA : isExported sname <;> simp_all
    | none => simp_all [List.isEmpty_iff]

/-- C3 witness: registering `hintRcvr` (no suitable value-receiver methods,
a suitable pointer-receiver method) fails with the no-suitable-methods error
and the pointer hint set. -/
theorem register_error_characterization_witness :
    (register (NewServer RpcKind.userRpc) hintRcvr "" false).err =
      some (RegisterError.noSuitableMethods "Hint" true) :=
  ((register_error_characterization (NewServer RpcKind.userRpc) hintRcvr "" false
      "Hint" rfl).2.2.2 true).mpr
    ⟨by decide, Or.inl (by decide), rfl, rfl, by decide⟩

/-- Every error branch of `registerCore` leaves the server untouched. -/
theorem registerCore_err_server (server : Server) (rcvr : GoRcvr) (name : String)
    (useName : Bool) :
    (registerCore server rcvr name useName).1 = server ∨
    (registerCore server rcvr name useName).2 = none := by
  simp only [registerCore]
  split_ifs <;>
    first
      | exact Or.inl rfl
      | (split <;> first | exact Or.inl rfl | exact Or.inr rfl)

/-- Lemma: `registerCore` either leaves the service map unchanged or prepends
exactly one new service built from the validator's output. -/
theorem registerCore_map_cases (server : Server) (rcvr : GoRcvr) (name : String)
    (useName : Bool) :
    (registerCore server rcvr name useName).1.serviceMap = server.serviceMap ∨
    ∃ sname,
      (registerCore server rcvr name useName).1.serviceMap =
        (sname, ⟨sname, rcvr.val, rcvr.typ, suitableMethods server.kind rcvr.methods⟩)
          :: server.serviceMap := by
  simp only [registerCore]
  split_ifs <;>
    first
      | exact Or.inl rfl
      | (split <;> first | exact Or.inl rfl | exact Or.inr ⟨_, rfl⟩)

/-- C7: whenever `register` returns an error — for any of the four failure
reasons — the server (and so its service map) is exactly as it was before
the call. -/
theorem register_atomic (server : Server) (rcvr : GoRcvr) (name : String)
    (useName : Bool) (e : RegisterError)
    (h : (register server rcvr name useName).err = some e) :
    (register server rcvr name useName).server = server := by
  rcases registerCore_err_server server rcvr name useName with h1 | h1
  · exact h1
  · rw [show (register server rcvr name useName).err =
        (registerCore server rcvr name useName).2 from rfl, h1] at h
    exact absurd h (by simp)

/-- C7 witness: re-registering the `Echo` receiver fails with the duplicate
error, the server is unchanged, and the first service is still queryable with
its original method set. -/
theorem register_atomic_witness :
    (register echoServer echoRcvr "" false).err =
      some (RegisterError.duplicateService "Echo") ∧
    (register echoServer echoRcvr "" false).server = echoServer ∧
    List.lookup "Echo" (register echoServer echoRcvr "" false).server.serviceMap =
      some echoService :=
  ⟨rfl, register_atomic echoServer echoRcvr "" false
      (RegisterError.duplicateService "Echo") rfl, rfl⟩

/-! ### Dispatcher lemmas: the four outcomes of `callCore` -/

/-- A malformed route (segment count not two) short-circuits `callCore`. -/
theorem callCore_format (server : Server) (route : String) (args : List GoVal)
    (h : (splitDot route).length ≠ 2) :
    callCore server route args = ([], none, some .invalidRouteFormat) := by
  simp only [callCore]
  rw [if_pos h]

/-- A well-formed route whose service is absent yields the service-not-found
error after a single lookup. -/
theorem callCore_service_missing (server : Server) (route : String) (args : List GoVal)
    (S M : String) (hroute : splitDot route = [S, M])
    (hl : List.lookup S server.serviceMap = none) :
    callCore server route args =
      ([.lookupService S], none, some (.serviceNotFound S)) := by
  simp only [callCore, hroute]
  rw [if_neg (by simp)]
  simp only [List.getD_cons_zero, List.getD_cons_succ]
  rw [hl]

/-- A well-formed route whose service exists but whose method is absent
yields the method-not-found error; no invocation happens. -/
theorem callCore_method_missing (server : Server) (route : String) (args : List GoVal)
    (S M : String) (s : service) (hroute : splitDot route = [S, M])
    (hl : List.lookup S server.serviceMap = some s)
    (hm : List.lookup M s.method = none) :
    callCore server route args =
      ([.lookupService S, .lookupMethod S M], none, some (.methodNotFound M)) := by
  simp only [callCore, hroute]
  rw [if_neg (by simp)]
  simp only [List.getD_cons_zero, List.getD_cons_succ]
  rw [hl]
  dsimp only
  rw [hm]

/-- A fully resolvable route invokes the handler on the receiver-prepended
arguments and returns its raw results with a nil error. -/
theorem callCore_success (server : Server) (route : String) (args : List GoVal)
    (S M : String) (s : service) (mt : methodType) (hroute : splitDot route = [S, M])
    (hl : List.lookup S server.serviceMap = some s)
    (hm : List.lookup M s.method = some mt) :
    callCore server route args =
      ([.lookupService S, .lookupMethod S M, .invoke S M (s.rcvr :: args)],
       some (mt.method.func (s.rcvr :: args)), none) := by
  simp only [callCore, hroute]
  rw [if_neg (by simp)]
  simp only [List.getD_cons_zero, List.getD_cons_succ]
  rw [hl]
  dsimp only
  rw [hm]

/-! ### Claim theorems: dispatch -/

/-- C4 counterexample: the route `".x"` has exactly one separator but an
empty first segment; `Call` does not fail with the route-format error — it
proceeds to the service lookup and fails there. -/
theorem call_route_format_counterexample :
    (Call (NewServer RpcKind.userRpc) ".x" []).err =
      some (CallError.serviceNotFound "") ∧
    (Call (NewServer RpcKind.userRpc) ".x" []).err ≠
      some CallError.invalidRouteFormat :=
  ⟨rfl, by decide⟩

/-- C4 (amended): `Call` fails with the route-format error exactly when
splitting the route on the separator does not give exactly two segments
(segments are not checked for emptiness); when the format check fails it
fails before any lookup: the trace is empty and no results are returned. -/
theorem call_route_format (server : Server) (route : String) (args : List GoVal) :
    ((Call server route args).err = some CallError.invalidRouteFormat ↔
      (splitDot route).length ≠ 2) ∧
    ((splitDot route).length ≠ 2 →
      Call server route args = ⟨server, [], none, some CallError.invalidRouteFormat⟩) := by
  have hc : Call server route args =
      ⟨server, (callCore server route args).1, (callCore server route args).2.1,
       (callCore server route args).2.2⟩ := rfl
  have hfmt : (splitDot route).length ≠ 2 →
      Call server route args = ⟨server, [], none, some CallError.invalidRouteFormat⟩ := by
    intro h
    rw [hc, callCore_format server route args h]
  refine ⟨⟨?_, fun h => by rw [hfmt h]⟩, hfmt⟩
  intro herr
  by_contra hlen
  have h2 : (splitDot route).length = 2 := by omega
  obtain ⟨S, M, hroute⟩ := List.length_eq_two.mp h2
  rw [hc] at herr
  cases hl : List.lookup S server.serviceMap with
  | none =>
    rw [callCore_service_missing server route args S M hroute hl] at herr
    exact absurd herr (by simp)
  | some s =>
    cases hm : List.lookup M s.method with
    | none =>
      rw [callCore_method_missing server route args S M s hroute hl hm] at herr
      exact absurd herr (by simp)
    | some mt =>
      rw [callCore_success server route args S M s mt hroute hl hm] at herr
      exact absurd herr (by simp)

/-- C4 witness: a route with no separator fails with the route-format error
before any lookup. -/
theorem call_route_format_witness :
    Call (NewServer RpcKind.userRpc) "Foo" [] =
      ⟨NewServer RpcKind.userRpc, [], none, some CallError.invalidRouteFormat⟩ :=
  (call_route_format (NewServer RpcKind.userRpc) "Foo" []).2 (by decide)

/-- C5: for a well-formed route `S.M`, if `S` is not registered `Call`
returns no results and the service-not-found error; if `S` is registered but
has no method `M` it returns no results and the method-not-found error; in
both cases the trace contains no invocation event and the server (hence the
registry) is returned unchanged. -/
theorem call_lookup_failures (server : Server) (route : String) (args : List GoVal)
    (S M : String) (hroute : splitDot route = [S, M]) :
    (List.lookup S server.serviceMap = none →
      Call server route args =
        ⟨server, [CallEvent.lookupService S], none,
         some (CallError.serviceNotFound S)⟩) ∧
    (∀ s : service, List.lookup S server.serviceMap = some s →
      List.lookup M s.method = none →
      Call server route args =
        ⟨server, [CallEvent.lookupService S, CallEvent.lookupMethod S M], none,
         some (CallError.methodNotFound M)⟩) := by
  have hc : Call server route args =
      ⟨server, (callCore server route args).1, (callCore server route args).2.1,
       (callCore server route args).2.2⟩ := rfl
  constructor
  · intro hl
    rw [hc, callCore_service_missing server route args S M hroute hl]
  · intro s hl hm
    rw [hc, callCore_method_missing server route args S M s hroute hl hm]

/-- C5 witness: a service lookup failure on an empty registry and a method
lookup failure on the registered `Echo` service, both with no invocation. -/
theorem call_lookup_failures_witness :
    Call (NewServer RpcKind.userRpc) "Foo.Bar" [] =
      ⟨NewServer RpcKind.userRpc, [CallEvent.lookupService "Foo"], none,
       some (CallError.serviceNotFound "Foo")⟩ ∧
    Call echoServer "Echo.Missing" [] =
      ⟨echoServer, [CallEvent.lookupService "Echo", CallEvent.lookupMethod "Echo" "Missing"],
       none, some (CallError.methodNotFound "Missing")⟩ :=
  ⟨(call_lookup_failures (NewServer RpcKind.userRpc) "Foo.Bar" [] "Foo" "Bar"
      (by decide)).1 rfl,
   (call_lookup_failures echoServer "Echo.Missing" [] "Echo" "Missing"
      (by decide)).2 echoService rfl rfl⟩

/-- C6: for a fully resolvable route `S.M`, `Call` performs exactly one
invocation — of the bound handler, with the receiver value prepended to the
argument list — and returns the handler's raw result values unmodified
together with a nil error, leaving the server unchanged. -/
theorem call_success_invokes_once (server : Server) (route : String) (args : List GoVal)
    (S M : String) (s : service) (mt : methodType)
    (hroute : splitDot route = [S, M])
    (hs : List.lookup S server.serviceMap = some s)
    (hm : List.lookup M s.method = some mt) :
    Call server route args =
      ⟨server,
       [CallEvent.lookupService S, CallEvent.lookupMethod S M,
        CallEvent.invoke S M (s.rcvr :: args)],
       some (mt.method.func (s.rcvr :: args)), none⟩ := by
  have hc : Call server route args =
      ⟨server, (callCore server route args).1, (callCore server route args).2.1,
       (callCore server route args).2.2⟩ := rfl
  rw [hc, callCore_success server route args S M s mt hroute hs hm]

/-- C6 witness: the registered `Echo.Echo` handler echoes its payload — for
the empty byte sequence and a non-trivial one — with a nil error. -/
theorem call_success_invokes_once_witness :
    Call echoServer "Echo.Echo" [GoVal.bytes []] =
      ⟨echoServer,
       [CallEvent.lookupService "Echo", CallEvent.lookupMethod "Echo" "Echo",
        CallEvent.invoke "Echo" "Echo" [GoVal.obj 0, GoVal.bytes []]],
       some [GoVal.bytes [], GoVal.errv none], none⟩ ∧
    Call echoServer "Echo.Echo" [GoVal.bytes [7, 0, 255]] =
      ⟨echoServer,
       [CallEvent.lookupService "Echo", CallEvent.lookupMethod "Echo" "Echo",
        CallEvent.invoke "Echo" "Echo" [GoVal.obj 0, GoVal.bytes [7, 0, 255]]],
       some [GoVal.bytes [7, 0, 255], GoVal.errv none], none⟩ :=
  ⟨call_success_invokes_once echoServer "Echo.Echo" [GoVal.bytes []]
      "Echo" "Echo" echoService echoMT (by decide) rfl rfl,
   call_success_invokes_once echoServer "Echo.Echo" [GoVal.bytes [7, 0, 255]]
      "Echo" "Echo" echoService echoMT (by decide) rfl rfl⟩

/-- C8: every object returned by the Response pool's acquire operation has
every field at its zero value — a fresh allocation is zeroed, and a reused
object popped from the free list is fully reset — and after releasing an
object, the next acquire returns the same underlying storage with every
field zeroed and the rest of the pool as before. -/
theorem getResponse_zeroed (p : RespPool) :
    ((getResponse p).1.2 = Response.zero) ∧
    (∀ (id : Nat) (r : Response),
      getResponse (freeResponse p (id, r)) = ((id, Response.zero), p)) := by
  constructor
  · rcases p with ⟨fr, na⟩
    cases fr with
    | nil => rfl
    | cons hd tl => rcases hd with ⟨i, r⟩; rfl
  · intro id r; rfl

/-- C9: the dispatch path of `Call` performs its service-map lookup with no
lock operation at all — in particular it never acquires the read lock of the
mutex that `register` write-locks around its whole critical section (whose
lock/unlock pair is visible in every `register` result).  This refutes the
claim that every dispatch-path lookup holds a shared lock. -/
theorem call_lookup_unlocked (server : Server) (route : String) (args : List GoVal)
    (S M : String) (hroute : splitDot route = [S, M]) :
    (Call server route args).trace.filter CallEvent.isLockOp = [] ∧
    CallEvent.lookupService S ∈ (Call server route args).trace ∧
    ∀ (rcvr : GoRcvr) (nm : String) (useName : Bool),
      (register server rcvr nm useName).locks =
        [LockEvent.writeLock, LockEvent.writeUnlock] := by
  have htr : (Call server route args).trace = (callCore server route args).1 := rfl
  have h3 : ∀ (rcvr : GoRcvr) (nm : String) (useName : Bool),
      (register server rcvr nm useName).locks =
        [LockEvent.writeLock, LockEvent.writeUnlock] := fun _ _ _ => rfl
  cases hl : List.lookup S server.serviceMap with
  | none =>
    rw [htr, callCore_service_missing server route args S M hroute hl]
    exact ⟨rfl, by simp, h3⟩
  | some s =>
    cases hm : List.lookup M s.method with
    | none =>
      rw [htr, callCore_method_missing server route args S M s hroute hl hm]
      exact ⟨rfl, by simp, h3⟩
    | some mt =>
      rw [htr, callCore_success server route args S M s mt hroute hl hm]
      exact ⟨rfl, by simp, h3⟩

/-- C9 witness: a concrete dispatch performs a service lookup and no lock
operation. -/
theorem call_lookup_unlocked_witness :
    (Call (NewServer RpcKind.userRpc) "Foo.Bar" []).trace.filter CallEvent.isLockOp = [] ∧
    CallEvent.lookupService "Foo" ∈ (Call (NewServer RpcKind.userRpc) "Foo.Bar" []).trace :=
  ⟨(call_lookup_unlocked (NewServer RpcKind.userRpc) "Foo.Bar" [] "Foo" "Bar" (by decide)).1,
   (call_lookup_unlocked (NewServer RpcKind.userRpc) "Foo.Bar" [] "Foo" "Bar" (by decide)).2.1⟩

/-! ### The call counter is never incremented -/

/-- Every descriptor produced by the validator carries a zero call counter. -/
theorem suitableMethods_numCalls (kind : RpcKind) :
    ∀ (l : List GoMethod) (acc : List (String × methodType)),
      (∀ q ∈ acc, q.2.numCalls = 0) →
      ∀ q ∈ l.foldl (addSuitable kind) acc, q.2.numCalls = 0 := by
  intro l
  induction l with
  | nil => intro acc h; exact h
  | cons a t ih =>
    intro acc h
    rw [List.foldl_cons]
    apply ih
    intro q hq
    unfold addSuitable at hq
    split at hq
    · rcases List.mem_cons.mp hq with rfl | hq'
      · cases kind <;> rfl
      · exact h q hq'
    · exact h q hq

/-- The invariant: every stored method descriptor has a zero call counter. -/
def zeroCounters (map : List (String × service)) : Prop :=
  ∀ p ∈ map, ∀ q ∈ p.2.method, q.2.numCalls = 0

/-- One operation — a registration or a dispatch — preserves the invariant. -/
theorem runOp_zeroCounters (s : Server) (op : Op) (h : zeroCounters s.serviceMap) :
    zeroCounters (runOp s op).serviceMap := by
  cases op with
  | call route args => exact h
  | reg rcvr nm useName =>
    show zeroCounters (registerCore s rcvr nm useName).1.serviceMap
    rcases registerCore_map_cases s rcvr nm useName with hmap | ⟨sname, hmap⟩
    · rw [hmap]; exact h
    · rw [hmap]
      intro p hp q hq
      rcases List.mem_cons.mp hp with rfl | hp'
      · exact suitableMethods_numCalls s.kind rcvr.methods []
          (fun q hq' => absurd hq' (List.not_mem_nil q)) q hq
      · exact h p hp' q hq

/-- Any sequence of operations preserves the invariant. -/
theorem runOps_zeroCounters (ops : List Op) :
    ∀ s : Server, zeroCounters s.serviceMap → zeroCounters (runOps s ops).serviceMap := by
  induction ops with
  | nil => intro s h; exact h
  | cons op t ih => intro s h; exact ih _ (runOp_zeroCounters s op h)

/-- A successful association-list lookup witnesses membership. -/
theorem lookup_mem_of_eq_some {β : Type} (k : String) (v : β) :
    ∀ l : List (String × β), List.lookup k l = some v → (k, v) ∈ l := by
  intro l
  induction l with
  | nil => intro h; cases h
  | cons p t ih =>
    intro h
    rcases p with ⟨k', v'⟩
    cases hbe : (k == k') with
    | true =>
      have hk : k = k' := eq_of_beq hbe
      have hv : v' = v := by
        rw [List.lookup] at h
        rw [hbe] at h
        exact Option.some.inj h
      rw [hk, hv]
      exact List.mem_cons_self _ _
    | false =>
      have ht : List.lookup k t = some v := by
        rw [List.lookup] at h
        rwa [hbe] at h
      exact List.mem_cons_of_mem _ (ih ht)

/-- C10: after any sequence of registrations and dispatches starting from a
fresh server, every registered method descriptor's call counter — as read by
`NumCalls` — is zero: `Call` never modifies `numCalls` and `NumCalls` merely
reads the stored value. -/
theorem numCalls_always_zero (kind : RpcKind) (ops : List Op)
    (S : String) (s : service) (M : String) (mt : methodType)
    (hs : List.lookup S (runOps (NewServer kind) ops).serviceMap = some s)
    (hm : List.lookup M s.method = some mt) :
    mt.NumCalls = 0 := by
  have hz : zeroCounters (runOps (NewServer kind) ops).serviceMap :=
    runOps_zeroCounters ops (NewServer kind)
      (fun p hp => absurd hp (List.not_mem_nil p))
  exact hz (S, s) (lookup_mem_of_eq_some S s _ hs) (M, mt)
    (lookup_mem_of_eq_some M mt _ hm)

/-- C10 witness: after registering `Echo` and performing both a successful
and a failing dispatch, the stored `Echo` descriptor still reports zero
calls. -/
theorem numCalls_always_zero_witness : echoMT.NumCalls = 0 :=
  numCalls_always_zero RpcKind.userRpc c10Ops "Echo" echoService "Echo" echoMT rfl rfl

end Starx
